import Mathlib

/-!
Verification development for the CodeHawk-Binary instruction-lifting core.

The definitions below are a shallow embedding of the Python sources under
`chb/`: the AST-node interning table (`chb/ast/ASTSerializer.py`), the ARM
operand model (`chb/arm/ARMOperand.py`), and the per-opcode semantic handlers
(`chb/arm/opcodes/ARMCompareBranchZero.py`,
`ARMLoadMultipleIncrementAfter.py`, `ARMUnsignedBitFieldExtract.py`,
`ARMBranchExchange.py`, `ARMPreloadData.py`).

Parts of the repository that the handlers depend on but that are not part of
the analysed sources (the `ARMOpcode` / `ARMOpcodeXData` / `InstrXData` base
classes and the `XXprUtil` expression resolver) are modelled from the
specification; every such definition carries a doc comment starting with
`Modelled from the spec:`.

Side effects on the AST interface (provenance-mapping registration and
logging) are not modelled; the embedding captures the values returned by each
handler, which is what the verified properties are about.
-/

set_option linter.unusedVariables false

namespace CHB

/-! ## Recovered symbolic entities (output of the invariants engine)

`XVariable` and `XXpr` are opaque to the lifting core: handlers only pass
them to the resolver or render them with `str`.  They are modelled as atoms
carrying their string rendering. -/

/-- A recovered assignment-target variable (`chb.invariants.XVariable`). -/
structure XVariable where
  vstr : String
deriving DecidableEq, Repr, Inhabited

/-- A recovered symbolic expression (`chb.invariants.XXpr`). -/
structure XXpr where
  xstr : String
deriving DecidableEq, Repr, Inhabited

/-- Opaque identifier of a reaching definition. -/
abbrev RDefId := Nat

/-- Opaque identifier of a def-use set. -/
abbrev DefUseId := Nat

/-- Modelled from the spec: `chb.app.InstrXData` (not under the analysed
sources) is the per-instruction fact bundle: ordered recovered variables,
ordered recovered expressions, reaching definitions, ordinary and "high"
def-use sets, the raw tags/args of the record, and a validity flag (`ok`).
`branchconds` models `has_branch_conditions()` and `calltarget` models
`has_call_target()`. -/
structure InstrXData where
  tags : List String
  args : List Int
  ok : Bool
  vars : List XVariable
  xprs : List XXpr
  reachingdefs : List RDefId
  defuses : List DefUseId
  defuseshigh : List DefUseId
  branchconds : Bool
  calltarget : Bool
deriving DecidableEq, Repr, Inhabited

/-- Modelled from the spec: `ARMOpcodeXData.xpr(i, name)` positional access
to the recovered expressions of the fact bundle. -/
def xprAt (xd : InstrXData) (i : Nat) : XXpr :=
  xd.xprs.getD i default

/-- Modelled from the spec: `ARMOpcodeXData.var(i, name)` positional access
to the recovered variables of the fact bundle. -/
def varAt (xd : InstrXData) (i : Nat) : XVariable :=
  xd.vars.getD i default

/-- Modelled from the spec: `ARMOpcodeXData.is_ok`, the bundle validity
flag checked by every handler before indexing into the bundle. -/
def is_ok (xd : InstrXData) : Bool :=
  xd.ok

/-! ## AST nodes

A small closed syntax for the AST fragments the analysed handlers build via
the `ASTInterface` factory methods (`mk_integer_constant`, `mk_binary_op`,
`mk_memref_expr`, `mk_variable_lval`, `mk_assign`, `mk_nop_instruction`).
Fragments produced by external components (operand kinds, the symbolic
resolver) are embedded as atomic constructors. -/

/-- An AST lvalue. -/
inductive ASTLval where
  /-- Source `mk_variable_lval r`: lvalue for a named (register) variable. -/
  | varLval : String → ASTLval
  /-- lvalue materialized by an operand kind (external), identified opaquely. -/
  | opLval : Nat → ASTLval
  /-- lvalue produced by the resolver from a recovered variable. -/
  | xLval : XVariable → ASTLval
deriving DecidableEq, Repr, Inhabited

/-- An AST expression. -/
inductive ASTExpr where
  /-- Source `mk_integer_constant n`. -/
  | intConst : Int → ASTExpr
  /-- Source `mk_binary_op op e1 e2`. -/
  | binop : String → ASTExpr → ASTExpr → ASTExpr
  /-- Source `mk_memref_expr e`: dereference of an address expression. -/
  | memref : ASTExpr → ASTExpr
  /-- rvalue materialized by an operand kind (external), identified opaquely. -/
  | opRval : Nat → ASTExpr
  /-- expression produced by the resolver from a recovered expression. -/
  | xconv : XXpr → ASTExpr
deriving DecidableEq, Repr, Inhabited

/-- An AST instruction. -/
inductive ASTInstruction where
  /-- Source `mk_assign lhs rhs iaddr bytestring annots`. -/
  | assign : ASTLval → ASTExpr → String → String → List String → ASTInstruction
  /-- Source `mk_nop_instruction mnem iaddr bytestring annots`. -/
  | nop : String → String → String → List String → ASTInstruction
deriving DecidableEq, Repr, Inhabited

/-- Source `ASTInterface.mk_integer_constant`. -/
def mk_integer_constant (n : Int) : ASTExpr := ASTExpr.intConst n

/-- Source `ASTInterface.mk_binary_op`. -/
def mk_binary_op (op : String) (e1 e2 : ASTExpr) : ASTExpr := ASTExpr.binop op e1 e2

/-- Source `ASTInterface.mk_memref_expr`. -/
def mk_memref_expr (e : ASTExpr) : ASTExpr := ASTExpr.memref e

/-- Source `ASTInterface.mk_variable_lval`. -/
def mk_variable_lval (name : String) : ASTLval := ASTLval.varLval name

/-- Source `ASTInterface.mk_assign` (the address, byte string and annotation list
are carried on the instruction for traceability). -/
def mk_assign (lhs : ASTLval) (rhs : ASTExpr)
    (iaddr bytestring : String) (annots : List String) : ASTInstruction :=
  ASTInstruction.assign lhs rhs iaddr bytestring annots

/-- Source `ASTInterface.mk_nop_instruction`. -/
def mk_nop_instruction (mnem : String)
    (iaddr bytestring : String) (annots : List String) : ASTInstruction :=
  ASTInstruction.nop mnem iaddr bytestring annots

/-- Modelled from the spec: `XXprUtil.xxpr_to_ast_def_expr` (not under the
analysed sources), the resolver converting one recovered expression into one
AST fragment. -/
def xxpr_to_ast_def_expr (x : XXpr) : ASTExpr := ASTExpr.xconv x

/-- Modelled from the spec: `XXprUtil.xvariable_to_ast_lval` (not under the
analysed sources), the resolver converting one recovered variable into one
AST lvalue. -/
def xvariable_to_ast_lval (v : XVariable) : ASTLval := ASTLval.xLval v

/-! ## Operand model (`chb/arm/ARMOperand.py`)

An `ARMOperand` delegates every query to its operand kind, which lives in an
external component; the embedding therefore carries the answers of those
queries as fields.  `ast_lvalue`/`ast_rvalue` return the fragment together
with pre/post instruction lists, exactly as in the source. -/

structure ARMOperand where
  lval : ASTLval
  lvalPre : List ASTInstruction
  lvalPost : List ASTInstruction
  rval : ASTExpr
  rvalPre : List ASTInstruction
  rvalPost : List ASTInstruction
  is_register : Bool
  regname : String
  registers : List String
deriving DecidableEq, Repr, Inhabited

/-- Source `ARMOperand.ast_lvalue`. -/
def ARMOperand.ast_lvalue (op : ARMOperand) :
    ASTLval × List ASTInstruction × List ASTInstruction :=
  (op.lval, op.lvalPre, op.lvalPost)

/-- Source `ARMOperand.ast_rvalue`. -/
def ARMOperand.ast_rvalue (op : ARMOperand) :
    ASTExpr × List ASTInstruction × List ASTInstruction :=
  (op.rval, op.rvalPre, op.rvalPost)

/-! ## AST node interning table (`chb/ast/ASTSerializer.py`) -/

/-- Content key of an AST node: `get_key` in `ASTSerializer.py`. -/
abbrev ASTKey := String × String

/-- Source `get_key(tags, args)`. -/
def get_key (tags : List String) (args : List Int) : ASTKey :=
  (String.intercalate "," tags, String.intercalate "," (args.map toString))

/-- Source `ASTNodeDictionary` (`ASTSerializer.py`): `keytable` maps content keys to
identities, `indextable` maps identities to stored payloads, `next` is the
next free identity.  The Python dictionaries are insertion-ordered maps with
unique keys; they are embedded as append-only association lists. -/
structure ASTNodeDictionary (α : Type) where
  keytable : List (ASTKey × Nat)
  indextable : List (Nat × α)
  next : Nat
deriving DecidableEq, Repr

/-- The freshly constructed dictionary (`__init__`): empty tables, `next = 1`. -/
def ASTNodeDictionary.empty (α : Type) : ASTNodeDictionary α :=
  ⟨[], [], 1⟩

/-- Source `key in self.keytable` / `self.keytable[key]` lookup over the embedded
association list. -/
def lookupKey (kt : List (ASTKey × Nat)) (k : ASTKey) : Option Nat :=
  match kt with
  | [] => none
  | (k2, i) :: rest => if k2 = k then some i else lookupKey rest k

/-- Source `ASTNodeDictionary.add(key, node)`: return the existing identity if the
key is present; otherwise allocate `next`, store the payload, and bump the
counter. -/
def ASTNodeDictionary.add {α : Type} (d : ASTNodeDictionary α)
    (k : ASTKey) (node : α) : ASTNodeDictionary α × Nat :=
  match lookupKey d.keytable k with
  | some i => (d, i)
  | none =>
      (⟨d.keytable ++ [(k, d.next)], d.indextable ++ [(d.next, node)],
        d.next + 1⟩, d.next)

/-- Insertion of one keyed record into a list sorted by identity. -/
def insertByFst {α : Type} (x : Nat × α) : List (Nat × α) → List (Nat × α)
  | [] => [x]
  | y :: ys => if x.1 ≤ y.1 then x :: y :: ys else y :: insertByFst x ys

/-- Sorting keyed records by identity (`sorted(self.indextable.items())`). -/
def sortByFst {α : Type} : List (Nat × α) → List (Nat × α)
  | [] => []
  | x :: xs => insertByFst x (sortByFst xs)

/-- Source `ASTNodeDictionary.records()`: the stored records ordered by identity,
each paired with its own identity (the source writes the identity into the
record under the `id` field; the pair models that annotation). -/
def ASTNodeDictionary.records {α : Type} (d : ASTNodeDictionary α) :
    List (Nat × α) :=
  sortByFst d.indextable

/-- A whole traversal: fold a sequence of `add` calls over a dictionary. -/
def ASTNodeDictionary.runAdds {α : Type} :
    ASTNodeDictionary α → List (ASTKey × α) → ASTNodeDictionary α
  | d, [] => d
  | d, (k, n) :: ops => ASTNodeDictionary.runAdds (d.add k n).1 ops

/-- The subsequence of first occurrences of keys not already seen:
`firstSeenExcl seen ks` keeps, in order, the first occurrence of every key of
`ks` that is not in `seen`. -/
def firstSeenExcl (seen : List ASTKey) : List ASTKey → List ASTKey
  | [] => []
  | k :: ks =>
      if k ∈ seen then firstSeenExcl seen ks
      else k :: firstSeenExcl (k :: seen) ks

/-! ## Opcode construction and the arity contract -/

/-- Modelled from the spec: the decode error raised by
`ARMOpcode.check_key` (not under the analysed sources) names the opcode and
the encountered vs. expected tag/argument counts. -/
structure DecodeError where
  opcode : String
  tagcount : Nat
  argcount : Nat
  expectedtags : Nat
  expectedargs : Nat
deriving DecidableEq, Repr

/-- Modelled from the spec: `ARMOpcode.check_key` (not under the analysed
sources) validates at construction that the raw record has the expected
tag count and argument count, raising a decode error naming the opcode on a
mismatch. -/
def check_key (tags : List String) (args : List Int)
    (reqtags reqargs : Nat) (name : String) : Except DecodeError Unit :=
  if tags.length = reqtags ∧ args.length = reqargs then Except.ok ()
  else Except.error ⟨name, tags.length, args.length, reqtags, reqargs⟩

/-- Source `ARMCompareBranchZero` (CBZ): raw record plus the operands resolved from
the arm dictionary (`opargs`/`operands` resolve every index of `args`). -/
structure ARMCompareBranchZero where
  tags : List String
  args : List Int
  opargs : List ARMOperand
deriving DecidableEq, Repr, Inhabited

/-- Source `ARMLoadMultipleIncrementAfter` (LDM): raw record plus the operands
resolved from the arm dictionary (`opargs`/`operands` resolve `args[1:]`, so
`opargs[0]` is the base register operand and `opargs[1]` the register list). -/
structure ARMLoadMultipleIncrementAfter where
  tags : List String
  args : List Int
  opargs : List ARMOperand
deriving DecidableEq, Repr, Inhabited

/-- Source `ARMUnsignedExtractBitField` (UBFX): raw record plus resolved operands. -/
structure ARMUnsignedExtractBitField where
  tags : List String
  args : List Int
  opargs : List ARMOperand
deriving DecidableEq, Repr, Inhabited

/-- Source `ARMBranchExchange` (BX): raw record plus resolved operands. -/
structure ARMBranchExchange where
  tags : List String
  args : List Int
  opargs : List ARMOperand
deriving DecidableEq, Repr, Inhabited

/-- Source `ARMPreloadData` (PLD/PLDW): raw record plus resolved operands. -/
structure ARMPreloadData where
  tags : List String
  args : List Int
  opargs : List ARMOperand
deriving DecidableEq, Repr, Inhabited

/-- Source `ARMCompareBranchZero.__init__`: `check_key(1, 2, "CompareBranchZero")`. -/
def mkCompareBranchZero (tags : List String) (args : List Int)
    (opargs : List ARMOperand) : Except DecodeError ARMCompareBranchZero :=
  (check_key tags args 1 2 "CompareBranchZero").map (fun _ => ⟨tags, args, opargs⟩)

/-- Source `ARMLoadMultipleIncrementAfter.__init__`:
`check_key(2, 4, "LoadMultipleIncrementAfter")`. -/
def mkLoadMultipleIncrementAfter (tags : List String) (args : List Int)
    (opargs : List ARMOperand) : Except DecodeError ARMLoadMultipleIncrementAfter :=
  (check_key tags args 2 4 "LoadMultipleIncrementAfter").map
    (fun _ => ⟨tags, args, opargs⟩)

/-- Source `ARMUnsignedExtractBitField.__init__`:
`check_key(2, 2, "UnsignedBitFieldExtract")`. -/
def mkUnsignedBitFieldExtract (tags : List String) (args : List Int)
    (opargs : List ARMOperand) : Except DecodeError ARMUnsignedExtractBitField :=
  (check_key tags args 2 2 "UnsignedBitFieldExtract").map
    (fun _ => ⟨tags, args, opargs⟩)

/-- Source `ARMBranchExchange.__init__`: `check_key(2, 1, "BranchExchange")`. -/
def mkBranchExchange (tags : List String) (args : List Int)
    (opargs : List ARMOperand) : Except DecodeError ARMBranchExchange :=
  (check_key tags args 2 1 "BranchExchange").map (fun _ => ⟨tags, args, opargs⟩)

/-- Source `ARMPreloadData.__init__`: `check_key(2, 3, "PreloadData")`. -/
def mkPreloadData (tags : List String) (args : List Int)
    (opargs : List ARMOperand) : Except DecodeError ARMPreloadData :=
  (check_key tags args 2 3 "PreloadData").map (fun _ => ⟨tags, args, opargs⟩)

/-! ## Compare-and-branch-zero handler (`ARMCompareBranchZero.py`) -/

/-- Source `ARMCompareBranchZeroXData` positional accessors (`xdata format:
a:xxxxxxr..`): `xrn = xprs[0]`, `txpr = xprs[1]`, `fxpr = xprs[2]`,
`tcond = xprs[3]`, `fcond = xprs[4]`, `xtgt = xprs[5]`; and the valid-case
summary string `"if " + str(tcond) + " goto " + str(xtgt)`. -/
def cbzXDataAnnot (xd : InstrXData) : String :=
  "if " ++ (xprAt xd 3).xstr ++ " goto " ++ (xprAt xd 5).xstr

/-- Source `ARMCompareBranchZero.annotation`: the valid-case summary, or the
designated error string for an invalid bundle. -/
def cbzAnnot (xd : InstrXData) : String :=
  if is_ok xd then cbzXDataAnnot xd else "Error value"

/-- Source `ARMCompareBranchZero.ft_conditions`: `[fcond, tcond]` (the simplified
false and true conditions, `xprs[4]` and `xprs[3]`) when the bundle has
branch conditions and is valid; empty otherwise. -/
def ARMCompareBranchZero.ft_conditions (op : ARMCompareBranchZero)
    (xdata : InstrXData) : List XXpr :=
  if xdata.branchconds then
    if is_ok xdata then [xprAt xdata 4, xprAt xdata 3] else []
  else []

/-- Source `ARMCompareBranchZero.ast_prov`: builds the generic assembly AST (from
the `ARMOpcode` base class, passed here as the function `assembly_ast`) and
returns it as both the high-level and the low-level instruction list. -/
def ARMCompareBranchZero.ast_prov (op : ARMCompareBranchZero)
    (assembly_ast : String → String → InstrXData → List ASTInstruction)
    (iaddr bytestring : String) (xdata : InstrXData) :
    List ASTInstruction × List ASTInstruction :=
  let instrs := assembly_ast iaddr bytestring xdata
  (instrs, instrs)

/-- Source `ARMCompareBranchZero.ast_condition_prov`: the low-level condition is
`opargs[0] == 0` (or `!= 0` when `reverse`); when `ft_conditions` yields
exactly two conditions the matching one is resolved as the high-level
condition, otherwise both components fall back to the literal zero. The
returned pair is `(high-level condition, low-level condition)`. -/
def ARMCompareBranchZero.ast_condition_prov (op : ARMCompareBranchZero)
    (iaddr bytestring : String) (xdata : InstrXData) (reverse : Bool) :
    ASTExpr × ASTExpr :=
  let ll_op := (op.opargs.getD 0 default).ast_rvalue.1
  let zero := mk_integer_constant 0
  let ll_cond :=
    if reverse then mk_binary_op "ne" ll_op zero
    else mk_binary_op "eq" ll_op zero
  let ftconds := op.ft_conditions xdata
  if ftconds.length = 2 then
    let condition := if reverse then ftconds.getD 0 default else ftconds.getD 1 default
    let hl_cond := xxpr_to_ast_def_expr condition
    (hl_cond, ll_cond)
  else
    (zero, zero)

/-! ## Load-multiple handler (`ARMLoadMultipleIncrementAfter.py`) -/

/-- Source `ARMLoadMultipleIncrementAfterXData.regcount`:
`len(self.xdata.vars_r) - 1` (the recovered variables are the base lhs
followed by one lhs per loaded register). -/
def ldmRegcount (xd : InstrXData) : Nat :=
  xd.vars.length - 1

/-- Source `ARMLoadMultipleIncrementAfterXData.baselhs`: `vars[0]`. -/
def ldmBaselhs (xd : InstrXData) : XVariable :=
  varAt xd 0

/-- Source `ARMLoadMultipleIncrementAfterXData.lhsvars`: `vars[1..regcount]`. -/
def ldmLhsvars (xd : InstrXData) : List XVariable :=
  (List.range' 1 (ldmRegcount xd)).map (varAt xd)

/-- Source `ARMLoadMultipleIncrementAfterXData.baserhs`: `xprs[0]`. -/
def ldmBaserhs (xd : InstrXData) : XXpr :=
  xprAt xd 0

/-- Source `ARMLoadMultipleIncrementAfterXData.rhsexprs`: `xprs[1..regcount]`. -/
def ldmRhsexprs (xd : InstrXData) : List XXpr :=
  (List.range' 1 (ldmRegcount xd)).map (xprAt xd)

/-- Modelled from the spec: `ARMOpcodeXData.get_base_update_xpr` (not under
the analysed sources) yields the simplified base-update expression, which is
`xprs[2]` in the LDM bundle layout (`xprs[2]: updated base (simplified)`). -/
def ldmBaseUpdateXpr (xd : InstrXData) : XXpr :=
  xprAt xd 2

/-- Source `ARMLoadMultipleIncrementAfterXData.annotation`: one `rhs := lhs` item
per register pair joined by `"; "` (the source's generator prints the second
zip component first), followed by the writeback-update suffix and wrapped by
the instruction-condition decorator; the latter two come from
`ARMOpcodeXData` methods not under the analysed sources and are passed in as
`wbu` and `addCond`. -/
def ldmXDataAnnot (wbu : String) (addCond : String → String)
    (xd : InstrXData) : String :=
  let pairs := (ldmLhsvars xd).zip (ldmRhsexprs xd)
  let assigns := String.intercalate "; "
    (pairs.map (fun p => p.2.xstr ++ " := " ++ p.1.vstr))
  addCond (assigns ++ wbu)

/-- Source `ARMLoadMultipleIncrementAfter.annotation`: the valid-case summary, or
the designated error string for an invalid bundle. -/
def ldmAnnot (wbu : String) (addCond : String → String)
    (xd : InstrXData) : String :=
  if is_ok xd then ldmXDataAnnot wbu addCond xd else "Error value"

/-- Source `ARMLoadMultipleIncrementAfter.writeback`: `args[0] == 1`. -/
def ARMLoadMultipleIncrementAfter.writeback
    (op : ARMLoadMultipleIncrementAfter) : Bool :=
  op.args.getD 0 0 = 1

/-- Source `ARMLoadMultipleIncrementAfter.ast_prov`.  An invalid bundle yields the
empty pair.  Otherwise, for the `i`-th register `r` of the register-list
operand the low-level assignment loads `*(base + 4*i)` into `r` (the source
accumulates `base_offset` in steps of 4) and the high-level assignment
resolves `lhsvars[i] := rhsexprs[i]`; with writeback one further pair updates
the base register, low-level by the raw addition `base + 4*regcount`,
high-level from the simplified base-update expression.  The returned pair is
`(high-level instructions, low-level instructions)`. -/
def ARMLoadMultipleIncrementAfter.ast_prov
    (op : ARMLoadMultipleIncrementAfter)
    (iaddr bytestring : String) (xdata : InstrXData) :
    List ASTInstruction × List ASTInstruction :=
  if is_ok xdata = false then ([], [])
  else
    let annots := [iaddr, "LDMIA"]
    let baselval := (op.opargs.getD 0 default).ast_lvalue.1
    let baserval := (op.opargs.getD 0 default).ast_rvalue.1
    let registers := (op.opargs.getD 1 default).registers
    let ll_instrs := registers.enum.map (fun ir =>
      mk_assign
        (mk_variable_lval ir.2)
        (mk_memref_expr
          (mk_binary_op "plus" baserval (mk_integer_constant (4 * (ir.1 : Int)))))
        iaddr bytestring annots)
    let hl_instrs := registers.enum.map (fun ir =>
      mk_assign
        (xvariable_to_ast_lval ((ldmLhsvars xdata).getD ir.1 default))
        (xxpr_to_ast_def_expr ((ldmRhsexprs xdata).getD ir.1 default))
        iaddr bytestring annots)
    if op.writeback then
      let baseincr : Int := 4 * (ldmRegcount xdata : Int)
      let ll_base_assign := mk_assign
        baselval
        (mk_binary_op "plus" baserval (mk_integer_constant baseincr))
        iaddr bytestring annots
      let hl_base_assign := mk_assign
        (xvariable_to_ast_lval (ldmBaselhs xdata))
        (xxpr_to_ast_def_expr (ldmBaseUpdateXpr xdata))
        iaddr bytestring annots
      (hl_instrs ++ [hl_base_assign], ll_instrs ++ [ll_base_assign])
    else
      (hl_instrs, ll_instrs)

/-! ## Bit-field-extract handler (`ARMUnsignedBitFieldExtract.py`) -/

/-- Modelled from the spec: `simplify_result` (from `chb.arm.ARMOpcode`, not
under the analysed sources) renders a possibly-simplified expression,
printing the simplified value with the original in parentheses when the two
differ. -/
def simplify_result (id1 id2 : Int) (x1 x2 : XXpr) : String :=
  if id1 = id2 then x1.xstr
  else x2.xstr ++ " (= " ++ x1.xstr ++ ")"

/-- Source `ARMUnsignedExtractBitField.annotation`:
`str(vars[0]) + " := " + simplify_result(args[1], args[2], xprs[0], xprs[1])`.
Note that this handler renders the summary without consulting the bundle's
validity flag. -/
def ubfxAnnot (xd : InstrXData) : String :=
  (xd.vars.getD 0 default).vstr ++ " := "
    ++ simplify_result (xd.args.getD 1 0) (xd.args.getD 2 0)
        (xprAt xd 0) (xprAt xd 1)

/-- The external symbolic resolver used by the UBFX emission path: the
one-to-many conversions `XXprUtil.xvariable_to_ast_lvals` and
`XXprUtil.xxpr_to_ast_def_exprs` (not under the analysed sources), the
latter of which may fail with a `CHBError`. -/
structure XConvEnv where
  xvariable_to_ast_lvals : XVariable → List ASTLval
  xxpr_to_ast_def_exprs : XXpr → Except String (List ASTExpr)

/-- Modelled from the spec: `ARMOpcode.ast_variable_intro` (not under the
analysed sources), the shared dual-emission helper of the protocol in §4.5:
it emits the high-level and low-level assignment instructions tagged with
the originating address and byte string (provenance-recording side effects
are not modelled). -/
def ast_variable_intro (hl_lhs : ASTLval) (hl_rhs : ASTExpr)
    (ll_lhs : ASTLval) (ll_rhs : ASTExpr)
    (iaddr bytestring : String) (annots : List String) :
    List ASTInstruction × List ASTInstruction :=
  ([mk_assign hl_lhs hl_rhs iaddr bytestring annots],
   [mk_assign ll_lhs ll_rhs iaddr bytestring annots])

/-- Source `ARMUnsignedExtractBitField.ast_prov`: resolves `vars[0]` and `xprs[1]`;
a resolver failure on the right-hand side is caught (and logged with the
faulting address) and the low-level rvalue is substituted; exactly one
resolved lvalue and rvalue are then emitted as a paired assignment, while
any other count raises the `CHBError` carried in the `Except.error` result. -/
def ARMUnsignedExtractBitField.ast_prov (env : XConvEnv)
    (op : ARMUnsignedExtractBitField)
    (iaddr bytestring : String) (xdata : InstrXData) :
    Except String (List ASTInstruction × List ASTInstruction) :=
  let annots := [iaddr, "UBFX"]
  let lhs := xdata.vars.getD 0 default
  let rhs := xdata.xprs.getD 1 default
  let ll_rhs := (op.opargs.getD 1 default).ast_rvalue.1
  let ll_lhs := (op.opargs.getD 0 default).ast_lvalue.1
  let hl_lhss := env.xvariable_to_ast_lvals lhs
  let hl_rhss :=
    match env.xxpr_to_ast_def_exprs rhs with
    | Except.ok es => es
    | Except.error _ => [ll_rhs]
  if hl_rhss.length = 1 ∧ hl_lhss.length = 1 then
    Except.ok (ast_variable_intro
      (hl_lhss.getD 0 default) (hl_rhss.getD 0 default)
      ll_lhs ll_rhs iaddr bytestring annots)
  else
    Except.error "ARMUnsignedBitFieldExtract: multiple expressions/lvals in ast"

/-! ## Branch-exchange handler (`ARMBranchExchange.py`) -/

/-- Source `ARMBranchExchange.is_call`: `len(xdata.tags) >= 2 and
xdata.tags[1] == "call"`. -/
def ARMBranchExchange.is_call (op : ARMBranchExchange)
    (xdata : InstrXData) : Bool :=
  decide (xdata.tags.length ≥ 2) && (xdata.tags.getD 1 "" == "call")

/-- Source `ARMBranchExchange.is_call_instruction`: hardcoded to `False` (the
call-target check is commented out in the source). -/
def ARMBranchExchange.is_call_instruction (op : ARMBranchExchange)
    (xdata : InstrXData) : Bool :=
  false

/-- Source `ARMBranchExchange.ast_prov`: when classified as a call with a call
target, delegate to the generic call-lifting path (from `ARMCallOpcode`,
passed in as `callProv`); otherwise emit no high-level instruction and a
single low-level no-op placeholder. -/
def ARMBranchExchange.ast_prov (op : ARMBranchExchange)
    (callProv : String → String → String → InstrXData →
      List ASTInstruction × List ASTInstruction)
    (iaddr bytestring : String) (xdata : InstrXData) :
    List ASTInstruction × List ASTInstruction :=
  let annots := [iaddr, "BX"]
  if op.is_call_instruction xdata && xdata.calltarget then
    callProv iaddr bytestring "BranchExchange" xdata
  else
    let nopinstr := mk_nop_instruction "BX" iaddr bytestring annots
    ([], [nopinstr])

/-! ## Concrete evaluation vectors

Small closed instances used to evaluate the handlers on concrete inputs. -/

/-- An invalid fact bundle (validity flag false) that still carries data. -/
def xdBad : InstrXData :=
  { tags := ["a:vxxrdh"], args := [0, 7, 8], ok := false
    vars := [⟨"R3"⟩], xprs := [⟨"x"⟩, ⟨"y"⟩]
    reachingdefs := [], defuses := [], defuseshigh := []
    branchconds := false, calltarget := false }

/-- A register operand whose kind-level AST fragments are the opaque
operand fragments number 0. -/
def regOperand0 : ARMOperand :=
  { lval := ASTLval.opLval 0, lvalPre := [], lvalPost := []
    rval := ASTExpr.opRval 0, rvalPre := [], rvalPost := []
    is_register := true, regname := "R0", registers := [] }

/-- The base-register operand of the concrete LDM instance. -/
def ldmBaseOp : ARMOperand :=
  { lval := ASTLval.opLval 1, lvalPre := [], lvalPost := []
    rval := ASTExpr.opRval 1, rvalPre := [], rvalPost := []
    is_register := true, regname := "R13", registers := [] }

/-- The register-list operand `{R1, R3}` of the concrete LDM instance. -/
def ldmRegListOp : ARMOperand :=
  { lval := ASTLval.opLval 2, lvalPre := [], lvalPost := []
    rval := ASTExpr.opRval 2, rvalPre := [], rvalPost := []
    is_register := false, regname := "", registers := ["R1", "R3"] }

/-- A concrete CBZ handler instance. -/
def cbzOp0 : ARMCompareBranchZero :=
  { tags := ["CBZ"], args := [3, 4], opargs := [regOperand0] }

/-- A valid CBZ fact bundle with the six positional expressions. -/
def cbzXdOk : InstrXData :=
  { tags := ["a:xxxxxxr.."], args := [], ok := true
    vars := [], xprs := [⟨"x0"⟩, ⟨"tx"⟩, ⟨"fx"⟩, ⟨"tc"⟩, ⟨"fc"⟩, ⟨"tg"⟩]
    reachingdefs := [0], defuses := [], defuseshigh := []
    branchconds := true, calltarget := false }

/-- A concrete LDM handler instance with writeback set and register list
`{R1, R3}`. -/
def ldmOp0 : ARMLoadMultipleIncrementAfter :=
  { tags := ["LDM", "al"], args := [1, 10, 11, 12]
    opargs := [ldmBaseOp, ldmRegListOp] }

/-- A valid LDM fact bundle for two loaded registers (`regcount = 2`). -/
def ldmXdOk : InstrXData :=
  { tags := ["vvxxxxxrrrdddhhh"], args := [], ok := true
    vars := [⟨"base"⟩, ⟨"v1"⟩, ⟨"v2"⟩]
    xprs := [⟨"b"⟩, ⟨"bupd"⟩, ⟨"bupds"⟩, ⟨"m1"⟩, ⟨"m2"⟩]
    reachingdefs := [0, 1, 2], defuses := [0, 1, 2], defuseshigh := [0, 1, 2]
    branchconds := false, calltarget := false }

/-- A concrete UBFX handler instance. -/
def ubfxOp0 : ARMUnsignedExtractBitField :=
  { tags := ["UBFX", "al"], args := [5, 6]
    opargs := [regOperand0,
      { lval := ASTLval.opLval 9, lvalPre := [], lvalPost := []
        rval := ASTExpr.opRval 9, rvalPre := [], rvalPost := []
        is_register := true, regname := "R4", registers := [] }] }

/-- A fact bundle for the concrete UBFX instance. -/
def ubfxXd0 : InstrXData :=
  { tags := ["a:vxxrdh"], args := [0, 1, 2], ok := true
    vars := [⟨"R2"⟩], xprs := [⟨"rn"⟩, ⟨"rns"⟩]
    reachingdefs := [0, 1], defuses := [0], defuseshigh := [0]
    branchconds := false, calltarget := false }

/-- A resolver environment whose expression conversion always fails. -/
def ubfxEnvFail : XConvEnv :=
  { xvariable_to_ast_lvals := fun v => [ASTLval.xLval v]
    xxpr_to_ast_def_exprs := fun _ => Except.error "conversion failed" }

/-! ## Helper lemmas -/

theorem getD_map_enum {α β : Type} (f : Nat × α → β) (l : List α) (i : Nat)
    (h : i < l.length) (d : β) (da : α) :
    (l.enum.map f).getD i d = f (i, l.getD i da) := by
  rw [List.getD_eq_getElem _ _ (by simpa using h)]
  rw [List.getElem_map, List.getElem_enum]
  rw [List.getD_eq_getElem _ _ h]

theorem getD_map_range2 {β : Type} (f : Nat → β) (s n i : Nat)
    (h : i < n) (d : β) :
    ((List.range' s n).map f).getD i d = f (s + i) := by
  rw [List.getD_eq_getElem _ _ (by simpa using h)]
  rw [List.getElem_map]
  simp [List.getElem_range']

theorem getD_append_lt {α : Type} (l1 l2 : List α) (i : Nat)
    (h : i < l1.length) (d : α) :
    (l1 ++ l2).getD i d = l1.getD i d := by
  rw [List.getD_eq_getElem _ _ (by simp; omega), List.getD_eq_getElem _ _ h]
  exact l1.getElem_append_left h

theorem getD_concat_length {α : Type} (l : List α) (x d : α) :
    (l ++ [x]).getD l.length d = x := by
  rw [List.getD_eq_getElem _ _ (by simp)]
  simp

theorem lookupKey_append_of_none (kt : List (ASTKey × Nat)) (k : ASTKey)
    (j : Nat) (h : lookupKey kt k = none) :
    lookupKey (kt ++ [(k, j)]) k = some j := by
  induction kt with
  | nil => simp [lookupKey]
  | cons p rest ih =>
      obtain ⟨k2, i⟩ := p
      simp only [lookupKey, List.cons_append] at h ⊢
      by_cases hp : k2 = k
      · rw [if_pos hp] at h; exact absurd h (by simp)
      · rw [if_neg hp] at h ⊢
        exact ih h

theorem lookupKey_eq_none_iff (kt : List (ASTKey × Nat)) (k : ASTKey) :
    lookupKey kt k = none ↔ k ∉ kt.map Prod.fst := by
  induction kt with
  | nil => simp [lookupKey]
  | cons p rest ih =>
      obtain ⟨k2, i⟩ := p
      simp only [lookupKey]
      by_cases hp : k2 = k
      · subst hp; simp
      · rw [if_neg hp]
        have hne : ¬ (k = k2) := fun hc => hp hc.symm
        simp [ih, hne]

theorem firstSeenExcl_congr (s1 s2 : List ASTKey) (l : List ASTKey)
    (h : ∀ x, x ∈ s1 ↔ x ∈ s2) :
    firstSeenExcl s1 l = firstSeenExcl s2 l := by
  induction l generalizing s1 s2 with
  | nil => rfl
  | cons k ks ih =>
      unfold firstSeenExcl
      by_cases hk : k ∈ s1
      · rw [if_pos hk, if_pos ((h k).mp hk)]
        exact ih s1 s2 h
      · rw [if_neg hk, if_neg (fun hc => hk ((h k).mpr hc))]
        congr 1
        refine ih (k :: s1) (k :: s2) (fun x => ?_)
        simp [h x]

theorem sortByFst_of_range2 {α : Type} (l : List (Nat × α)) (s : Nat)
    (h : l.map Prod.fst = List.range' s l.length) :
    sortByFst l = l := by
  induction l generalizing s with
  | nil => rfl
  | cons x xs ih =>
      have h2 : x.1 :: xs.map Prod.fst = s :: List.range' (s + 1) xs.length := by
        simpa [List.range'] using h
      have hx : x.1 = s := (List.cons.injEq _ _ _ _ ▸ h2).1
      have hxs : xs.map Prod.fst = List.range' (s + 1) xs.length :=
        (List.cons.injEq _ _ _ _ ▸ h2).2
      unfold sortByFst
      rw [ih (s + 1) hxs]
      cases xs with
      | nil => rfl
      | cons y ys =>
          have hy : y.1 = s + 1 := by
            have := hxs
            simp [List.range'] at this
            exact this.1
          unfold insertByFst
          rw [if_pos (by omega)]

theorem arity_aux {β : Type} (c : Prop) [Decidable c] (e : DecodeError) (r : β) :
    ((∃ x, (((if c then Except.ok () else Except.error e) :
        Except DecodeError Unit).map (fun _ => r)) = Except.ok x) ↔ c)
    ∧ (¬ c → (((if c then Except.ok () else Except.error e) :
        Except DecodeError Unit).map (fun _ => r)) = Except.error e) := by
  by_cases h : c <;> simp [h, Except.map]

theorem range2_concat (s n : Nat) :
    List.range' s (n + 1) = List.range' s n ++ [s + n] := by
  have h : List.range' s (n + 1) 1 = List.range' s n 1 ++ [s + 1 * n] :=
    List.range'_concat s n
  simpa using h

theorem firstSeenExcl_cons_mem (seen : List ASTKey) (k : ASTKey)
    (ks : List ASTKey) (h : k ∈ seen) :
    firstSeenExcl seen (k :: ks) = firstSeenExcl seen ks := by
  conv_lhs => unfold firstSeenExcl
  rw [if_pos h]

theorem firstSeenExcl_cons_not_mem (seen : List ASTKey) (k : ASTKey)
    (ks : List ASTKey) (h : k ∉ seen) :
    firstSeenExcl seen (k :: ks) = k :: firstSeenExcl (k :: seen) ks := by
  conv_lhs => unfold firstSeenExcl
  rw [if_neg h]

theorem runAdds_master {α : Type} (ops : List (ASTKey × α)) :
    ∀ d : ASTNodeDictionary α,
      d.next = d.indextable.length + 1 →
      d.indextable.map Prod.fst = List.range' 1 d.indextable.length →
      d.keytable.map Prod.snd = List.range' 1 d.indextable.length →
      (ASTNodeDictionary.runAdds d ops).next
          = (ASTNodeDictionary.runAdds d ops).indextable.length + 1
      ∧ (ASTNodeDictionary.runAdds d ops).indextable.map Prod.fst
          = List.range' 1 (ASTNodeDictionary.runAdds d ops).indextable.length
      ∧ (ASTNodeDictionary.runAdds d ops).keytable.map Prod.snd
          = List.range' 1 (ASTNodeDictionary.runAdds d ops).indextable.length
      ∧ (ASTNodeDictionary.runAdds d ops).keytable.map Prod.fst
          = d.keytable.map Prod.fst
            ++ firstSeenExcl (d.keytable.map Prod.fst) (ops.map Prod.fst) := by
  induction ops with
  | nil =>
      intro d h1 h2 h3
      exact ⟨h1, h2, h3, by simp [ASTNodeDictionary.runAdds, firstSeenExcl]⟩
  | cons p ops ih =>
      obtain ⟨k, n⟩ := p
      intro d h1 h2 h3
      simp only [ASTNodeDictionary.runAdds, List.map_cons]
      cases hl : lookupKey d.keytable k with
      | some i =>
          have hd : (d.add k n).1 = d := by
            simp [ASTNodeDictionary.add, hl]
          have hmem : k ∈ d.keytable.map Prod.fst := by
            by_contra hm
            rw [← lookupKey_eq_none_iff] at hm
            rw [hl] at hm
            exact absurd hm (by simp)
          rw [hd]
          have hrec := ih d h1 h2 h3
          refine ⟨hrec.1, hrec.2.1, hrec.2.2.1, ?_⟩
          rw [hrec.2.2.2, firstSeenExcl_cons_mem _ _ _ hmem]
      | none =>
          have hknot : k ∉ d.keytable.map Prod.fst :=
            (lookupKey_eq_none_iff _ _).mp hl
          have hd : (d.add k n).1
              = ⟨d.keytable ++ [(k, d.next)], d.indextable ++ [(d.next, n)],
                 d.next + 1⟩ := by
            simp [ASTNodeDictionary.add, hl]
          rw [hd]
          have hrec := ih
            ⟨d.keytable ++ [(k, d.next)], d.indextable ++ [(d.next, n)],
             d.next + 1⟩
            (by simp [h1])
            (by
              show (d.indextable ++ [(d.next, n)]).map Prod.fst
                = List.range' 1 (d.indextable ++ [(d.next, n)]).length
              rw [List.map_append, h2, h1]
              simp [range2_concat, Nat.add_comm])
            (by
              show (d.keytable ++ [(k, d.next)]).map Prod.snd
                = List.range' 1 (d.indextable ++ [(d.next, n)]).length
              rw [List.map_append, h3, h1]
              simp [range2_concat, Nat.add_comm])
          refine ⟨hrec.1, hrec.2.1, hrec.2.2.1, ?_⟩
          rw [hrec.2.2.2]
          have hkeys : (⟨d.keytable ++ [(k, d.next)],
              d.indextable ++ [(d.next, n)],
              d.next + 1⟩ : ASTNodeDictionary α).keytable.map Prod.fst
              = d.keytable.map Prod.fst ++ [k] := by simp
          rw [hkeys]
          rw [firstSeenExcl_cons_not_mem _ _ _ hknot]
          rw [firstSeenExcl_congr (d.keytable.map Prod.fst ++ [k])
            (k :: d.keytable.map Prod.fst) (ops.map Prod.fst)
            (fun x => by simp [or_comm])]
          simp

/-! ## Claim theorems -/

/-- Claim C3: calling the interning table's `add` twice with the same
content key returns the same integer identity both times, the second call
leaves the table (and hence the stored payload for that key) unchanged, and
the number of stored records grows by one exactly when the key is new, not
per call. -/
theorem intern_add_idempotent {α : Type} (d : ASTNodeDictionary α)
    (k : ASTKey) (n n2 : α) :
    ((d.add k n).1.add k n2).2 = (d.add k n).2
    ∧ ((d.add k n).1.add k n2).1 = (d.add k n).1
    ∧ (d.add k n).1.indextable.length
        = d.indextable.length
          + (match lookupKey d.keytable k with
             | some _ => 0
             | none => 1) := by
  cases hl : lookupKey d.keytable k with
  | some i => simp [ASTNodeDictionary.add, hl]
  | none =>
      have h2 : lookupKey (d.keytable ++ [(k, d.next)]) k = some d.next :=
        lookupKey_append_of_none _ _ _ hl
      simp [ASTNodeDictionary.add, hl, h2]

/-- Claim C4: across any sequence of `add` calls starting from the empty
table, identities are assigned to distinct content keys in strictly
increasing first-encounter order starting from 1 (the `j`-th distinct key
receives identity `j`), with no reuse and no gaps below the next-free
counter, and `records()` returns the stored nodes ordered by identity, each
paired with its own identity. -/
theorem intern_identity_monotone {α : Type} (ops : List (ASTKey × α)) :
    (ASTNodeDictionary.runAdds (ASTNodeDictionary.empty α) ops).next
        = (ASTNodeDictionary.runAdds (ASTNodeDictionary.empty α) ops).indextable.length + 1
    ∧ (ASTNodeDictionary.runAdds (ASTNodeDictionary.empty α) ops).indextable.map Prod.fst
        = List.range' 1 (ASTNodeDictionary.runAdds (ASTNodeDictionary.empty α) ops).indextable.length
    ∧ (ASTNodeDictionary.runAdds (ASTNodeDictionary.empty α) ops).keytable.map Prod.snd
        = List.range' 1 (ASTNodeDictionary.runAdds (ASTNodeDictionary.empty α) ops).indextable.length
    ∧ (ASTNodeDictionary.runAdds (ASTNodeDictionary.empty α) ops).keytable.map Prod.fst
        = firstSeenExcl [] (ops.map Prod.fst)
    ∧ (ASTNodeDictionary.runAdds (ASTNodeDictionary.empty α) ops).records
        = (ASTNodeDictionary.runAdds (ASTNodeDictionary.empty α) ops).indextable := by
  have h := runAdds_master ops (ASTNodeDictionary.empty α)
    (by simp [ASTNodeDictionary.empty])
    (by simp [ASTNodeDictionary.empty])
    (by simp [ASTNodeDictionary.empty])
  refine ⟨h.1, h.2.1, h.2.2.1, ?_, ?_⟩
  · have := h.2.2.2
    simpa [ASTNodeDictionary.empty] using this
  · exact sortByFst_of_range2 _ 1 h.2.1

/-- Claim C7: for each of the five registered opcode classes, construction
from a raw record succeeds exactly when the tag count and argument count
match the documented arity (CBZ: 1 tag, 2 args; LDM: 2 tags, 4 args;
UBFX: 2 tags, 2 args; BX: 2 tags, 1 arg; PLD: 2 tags, 3 args), and a
mismatch yields a decode error naming the opcode together with the
encountered and expected counts. -/
theorem arity_contract (tags : List String) (args : List Int)
    (ops : List ARMOperand) :
    (((∃ r, mkCompareBranchZero tags args ops = Except.ok r)
        ↔ (tags.length = 1 ∧ args.length = 2))
      ∧ (¬ (tags.length = 1 ∧ args.length = 2) →
          mkCompareBranchZero tags args ops
            = Except.error ⟨"CompareBranchZero", tags.length, args.length, 1, 2⟩))
    ∧ (((∃ r, mkLoadMultipleIncrementAfter tags args ops = Except.ok r)
        ↔ (tags.length = 2 ∧ args.length = 4))
      ∧ (¬ (tags.length = 2 ∧ args.length = 4) →
          mkLoadMultipleIncrementAfter tags args ops
            = Except.error ⟨"LoadMultipleIncrementAfter", tags.length, args.length, 2, 4⟩))
    ∧ (((∃ r, mkUnsignedBitFieldExtract tags args ops = Except.ok r)
        ↔ (tags.length = 2 ∧ args.length = 2))
      ∧ (¬ (tags.length = 2 ∧ args.length = 2) →
          mkUnsignedBitFieldExtract tags args ops
            = Except.error ⟨"UnsignedBitFieldExtract", tags.length, args.length, 2, 2⟩))
    ∧ (((∃ r, mkBranchExchange tags args ops = Except.ok r)
        ↔ (tags.length = 2 ∧ args.length = 1))
      ∧ (¬ (tags.length = 2 ∧ args.length = 1) →
          mkBranchExchange tags args ops
            = Except.error ⟨"BranchExchange", tags.length, args.length, 2, 1⟩))
    ∧ (((∃ r, mkPreloadData tags args ops = Except.ok r)
        ↔ (tags.length = 2 ∧ args.length = 3))
      ∧ (¬ (tags.length = 2 ∧ args.length = 3) →
          mkPreloadData tags args ops
            = Except.error ⟨"PreloadData", tags.length, args.length, 2, 3⟩)) := by
  refine ⟨?_, ?_, ?_, ?_, ?_⟩ <;>
    exact arity_aux _ _ _

/-- Witness for claim C7: a record with no tags and no arguments is rejected
by the CBZ constructor with a decode error naming the opcode. -/
theorem arity_contract_witness :
    mkCompareBranchZero [] [] []
      = Except.error ⟨"CompareBranchZero", 0, 0, 1, 2⟩ :=
  (arity_contract [] [] []).1.2 (by decide)

/-- Claim C9: the BX handler never classifies an instruction as a call
(`is_call_instruction` is hardcoded to false), so `ast_prov` always takes
the non-call path, returning no high-level instructions and exactly one
low-level no-op placeholder. -/
theorem bx_ast_prov_nop (op : ARMBranchExchange)
    (callProv : String → String → String → InstrXData →
      List ASTInstruction × List ASTInstruction)
    (iaddr bytestring : String) (xdata : InstrXData) :
    op.is_call_instruction xdata = false
    ∧ op.ast_prov callProv iaddr bytestring xdata
        = ([], [mk_nop_instruction "BX" iaddr bytestring [iaddr, "BX"]]) :=
  ⟨rfl, rfl⟩

/-- Claim C10: the CBZ handler's `ast_prov` returns the identical
instruction list as both the high-level and the low-level component. -/
theorem cbz_ast_prov_identical (op : ARMCompareBranchZero)
    (assembly_ast : String → String → InstrXData → List ASTInstruction)
    (iaddr bytestring : String) (xdata : InstrXData) :
    (op.ast_prov assembly_ast iaddr bytestring xdata).1
      = (op.ast_prov assembly_ast iaddr bytestring xdata).2 :=
  rfl

/-- Claim C2: with exactly two recovered condition expressions available,
CBZ's `ast_condition_prov` pairs, for `reverse = false`, the resolved
"true" condition (`tcond`, `xprs[3]`) with the low-level comparison
`opargs[0] == 0`, and, for `reverse = true`, the resolved "false" condition
(`fcond`, `xprs[4]`) with the low-level comparison `opargs[0] != 0`. -/
theorem cbz_condition_pairing (op : ARMCompareBranchZero)
    (iaddr bytestring : String) (xdata : InstrXData)
    (h : (op.ft_conditions xdata).length = 2) :
    op.ast_condition_prov iaddr bytestring xdata false
      = (xxpr_to_ast_def_expr (xprAt xdata 3),
         mk_binary_op "eq" (op.opargs.getD 0 default).ast_rvalue.1
           (mk_integer_constant 0))
    ∧ op.ast_condition_prov iaddr bytestring xdata true
      = (xxpr_to_ast_def_expr (xprAt xdata 4),
         mk_binary_op "ne" (op.opargs.getD 0 default).ast_rvalue.1
           (mk_integer_constant 0)) := by
  have hft : op.ft_conditions xdata = [xprAt xdata 4, xprAt xdata 3] := by
    by_cases hb : xdata.branchconds = true
    · by_cases hk : is_ok xdata = true
      · simp [ARMCompareBranchZero.ft_conditions, hb, hk]
      · simp [ARMCompareBranchZero.ft_conditions, hb, hk] at h
    · simp [ARMCompareBranchZero.ft_conditions, hb] at h
  refine ⟨?_, ?_⟩ <;>
    simp [ARMCompareBranchZero.ast_condition_prov, hft]

/-- Witness for claim C2: on a concrete CBZ instance with a valid bundle
holding six positional expressions, `reverse = false` selects the resolved
true condition paired with the `eq 0` comparison. -/
theorem cbz_condition_pairing_witness :
    cbzOp0.ast_condition_prov "0x100" "b1" cbzXdOk false
      = (xxpr_to_ast_def_expr ⟨"tc"⟩,
         mk_binary_op "eq" (ASTExpr.opRval 0) (mk_integer_constant 0)) := by
  have h := cbz_condition_pairing cbzOp0 "0x100" "b1" cbzXdOk (by decide)
  exact h.1.trans (by decide)

/-- Claim C6: whenever fewer than two recovered condition expressions are
available (in particular for an invalid bundle), CBZ's `ast_condition_prov`
returns the literal zero constant for both levels, and the condition list is
in fact empty (the handler never produces a single condition). -/
theorem cbz_condition_fallback (op : ARMCompareBranchZero)
    (iaddr bytestring : String) (xdata : InstrXData) (reverse : Bool)
    (h : (op.ft_conditions xdata).length < 2) :
    op.ast_condition_prov iaddr bytestring xdata reverse
      = (mk_integer_constant 0, mk_integer_constant 0)
    ∧ op.ft_conditions xdata = [] := by
  have hne : ¬ ((op.ft_conditions xdata).length = 2) := by omega
  refine ⟨?_, ?_⟩
  · simp [ARMCompareBranchZero.ast_condition_prov, hne]
  · by_cases hb : xdata.branchconds = true <;>
      by_cases hk : is_ok xdata = true <;>
      simp [ARMCompareBranchZero.ft_conditions, hb, hk] at h ⊢

/-- Witness for claim C6: on an invalid bundle the concrete CBZ instance
falls back to the zero placeholder at both levels. -/
theorem cbz_condition_fallback_witness :
    cbzOp0.ast_condition_prov "0x100" "b1" xdBad true
      = (mk_integer_constant 0, mk_integer_constant 0) :=
  (cbz_condition_fallback cbzOp0 "0x100" "b1" xdBad true (by decide)).1

/-- Claim C5 (amended): for the LDM and CBZ handlers, a fact bundle whose
validity flag is false makes `annotation` return exactly the designated
error string, and LDM's `ast_prov` returns a pair of empty instruction
lists; the UBFX handler's `annotation`, by contrast, does not consult the
validity flag. -/
theorem invalid_bundle_degrade (wbu : String) (addCond : String → String)
    (op : ARMLoadMultipleIncrementAfter) (iaddr bytestring : String)
    (xdata : InstrXData) (h : xdata.ok = false) :
    ldmAnnot wbu addCond xdata = "Error value"
    ∧ cbzAnnot xdata = "Error value"
    ∧ op.ast_prov iaddr bytestring xdata = ([], []) := by
  refine ⟨?_, ?_, ?_⟩ <;>
    simp [ldmAnnot, cbzAnnot, ARMLoadMultipleIncrementAfter.ast_prov, is_ok, h]

/-- Witness for claim C5 (amended): evaluated on the concrete invalid
bundle. -/
theorem invalid_bundle_degrade_witness :
    ldmAnnot "" id xdBad = "Error value"
    ∧ cbzAnnot xdBad = "Error value"
    ∧ ldmOp0.ast_prov "0x1000" "e8" xdBad = ([], []) :=
  invalid_bundle_degrade "" id ldmOp0 "0x1000" "e8" xdBad rfl

/-- Counterexample for claim C5 as stated: the UBFX handler's `annotation`
on an invalid fact bundle (validity flag false) does not return the
designated error string; it renders the positional summary unconditionally. -/
theorem ubfx_annot_counterexample :
    is_ok xdBad = false ∧ ubfxAnnot xdBad ≠ "Error value" := by
  refine ⟨rfl, ?_⟩
  decide

theorem ldm_ast_prov_eq (op : ARMLoadMultipleIncrementAfter)
    (iaddr bytestring : String) (xdata : InstrXData)
    (hok : is_ok xdata = true) :
    op.ast_prov iaddr bytestring xdata
      = ((op.opargs.getD 1 default).registers.enum.map (fun ir =>
            mk_assign
              (xvariable_to_ast_lval ((ldmLhsvars xdata).getD ir.1 default))
              (xxpr_to_ast_def_expr ((ldmRhsexprs xdata).getD ir.1 default))
              iaddr bytestring [iaddr, "LDMIA"])
          ++ (if op.writeback then
              [mk_assign (xvariable_to_ast_lval (ldmBaselhs xdata))
                (xxpr_to_ast_def_expr (ldmBaseUpdateXpr xdata))
                iaddr bytestring [iaddr, "LDMIA"]]
            else []),
         (op.opargs.getD 1 default).registers.enum.map (fun ir =>
            mk_assign
              (mk_variable_lval ir.2)
              (mk_memref_expr (mk_binary_op "plus"
                (op.opargs.getD 0 default).ast_rvalue.1
                (mk_integer_constant (4 * (ir.1 : Int)))))
              iaddr bytestring [iaddr, "LDMIA"])
          ++ (if op.writeback then
              [mk_assign (op.opargs.getD 0 default).ast_lvalue.1
                (mk_binary_op "plus" (op.opargs.getD 0 default).ast_rvalue.1
                  (mk_integer_constant (4 * (ldmRegcount xdata : Int))))
                iaddr bytestring [iaddr, "LDMIA"]]
            else [])) := by
  unfold ARMLoadMultipleIncrementAfter.ast_prov
  rw [if_neg (by simp [hok])]
  by_cases hwb : op.writeback = true <;> simp [hwb]

/-- Claim C1: for a valid LDM fact bundle (with the register-list length
matching `regcount`), `ast_prov` emits, for each register `r_i` of the
register list in list order, a low-level assignment `r_i := *(base + 4*i)`
(offsets 0, 4, 8, ... in order), positionally paired with a high-level
assignment resolved from the bundle's `i`-th recovered variable `lhsvars[i]`
(`vars[i+1]`) and expression `rhsexprs[i]` (`xprs[i+1]`); both emitted lists
have the same length, and when the writeback flag (`args[0] == 1`) is set
one additional pair is appended whose low-level right-hand side is the raw
addition `base + 4*regcount` and whose high-level right-hand side is the
resolved simplified base-update expression. -/
theorem ldm_ast_prov_spec (op : ARMLoadMultipleIncrementAfter)
    (iaddr bytestring : String) (xdata : InstrXData)
    (hok : is_ok xdata = true)
    (hlen : (op.opargs.getD 1 default).registers.length = ldmRegcount xdata) :
    ((op.ast_prov iaddr bytestring xdata).1.length
        = (op.opargs.getD 1 default).registers.length
          + (if op.writeback then 1 else 0)
    ∧ (op.ast_prov iaddr bytestring xdata).2.length
        = (op.opargs.getD 1 default).registers.length
          + (if op.writeback then 1 else 0))
    ∧ (∀ i, i < (op.opargs.getD 1 default).registers.length →
        (op.ast_prov iaddr bytestring xdata).2.getD i default
          = mk_assign
              (mk_variable_lval ((op.opargs.getD 1 default).registers.getD i ""))
              (mk_memref_expr (mk_binary_op "plus"
                (op.opargs.getD 0 default).ast_rvalue.1
                (mk_integer_constant (4 * (i : Int)))))
              iaddr bytestring [iaddr, "LDMIA"]
        ∧ (op.ast_prov iaddr bytestring xdata).1.getD i default
          = mk_assign
              (xvariable_to_ast_lval (varAt xdata (i + 1)))
              (xxpr_to_ast_def_expr (xprAt xdata (i + 1)))
              iaddr bytestring [iaddr, "LDMIA"])
    ∧ (op.writeback = true →
        (op.ast_prov iaddr bytestring xdata).2.getD
            (op.opargs.getD 1 default).registers.length default
          = mk_assign
              (op.opargs.getD 0 default).ast_lvalue.1
              (mk_binary_op "plus" (op.opargs.getD 0 default).ast_rvalue.1
                (mk_integer_constant (4 * (ldmRegcount xdata : Int))))
              iaddr bytestring [iaddr, "LDMIA"]
        ∧ (op.ast_prov iaddr bytestring xdata).1.getD
            (op.opargs.getD 1 default).registers.length default
          = mk_assign
              (xvariable_to_ast_lval (ldmBaselhs xdata))
              (xxpr_to_ast_def_expr (ldmBaseUpdateXpr xdata))
              iaddr bytestring [iaddr, "LDMIA"]) := by
  have he := ldm_ast_prov_eq op iaddr bytestring xdata hok
  refine ⟨⟨?_, ?_⟩, ?_, ?_⟩
  · rw [he]
    by_cases hwb : op.writeback = true <;> simp [hwb]
  · rw [he]
    by_cases hwb : op.writeback = true <;> simp [hwb]
  · intro i hi
    constructor
    · rw [he]
      dsimp only
      rw [getD_append_lt _ _ _ (by simpa using hi)]
      rw [getD_map_enum _ _ _ hi _ ""]
    · rw [he]
      dsimp only
      rw [getD_append_lt _ _ _ (by simpa using hi)]
      rw [getD_map_enum _ _ _ hi _ ""]
      have hi2 : i < ldmRegcount xdata := hlen ▸ hi
      have hv : (ldmLhsvars xdata).getD i default = varAt xdata (i + 1) := by
        rw [ldmLhsvars, getD_map_range2 _ _ _ _ hi2, Nat.add_comm]
      have hx : (ldmRhsexprs xdata).getD i default = xprAt xdata (i + 1) := by
        rw [ldmRhsexprs, getD_map_range2 _ _ _ _ hi2, Nat.add_comm]
      rw [hv, hx]
  · intro hwb
    constructor
    · rw [he]
      dsimp only
      rw [hwb]
      have hl2 : ((op.opargs.getD 1 default).registers.enum.map (fun ir =>
          mk_assign
            (mk_variable_lval ir.2)
            (mk_memref_expr (mk_binary_op "plus"
              (op.opargs.getD 0 default).ast_rvalue.1
              (mk_integer_constant (4 * (ir.1 : Int)))))
            iaddr bytestring [iaddr, "LDMIA"])).length
          = (op.opargs.getD 1 default).registers.length := by simp
      rw [← hl2, if_pos rfl, getD_concat_length]
    · rw [he]
      dsimp only
      rw [hwb]
      have hl2 : ((op.opargs.getD 1 default).registers.enum.map (fun ir =>
          mk_assign
            (xvariable_to_ast_lval ((ldmLhsvars xdata).getD ir.1 default))
            (xxpr_to_ast_def_expr ((ldmRhsexprs xdata).getD ir.1 default))
            iaddr bytestring [iaddr, "LDMIA"])).length
          = (op.opargs.getD 1 default).registers.length := by simp
      rw [← hl2, if_pos rfl, getD_concat_length]

/-- Witness for claim C1: the concrete LDM instance with register list
`{R1, R3}` and writeback loads `R1` from `*(base + 0)` as its first
low-level assignment. -/
theorem ldm_ast_prov_spec_witness :
    (ldmOp0.ast_prov "0x1000" "04c09de8" ldmXdOk).2.getD 0 default
      = mk_assign (mk_variable_lval "R1")
          (mk_memref_expr (mk_binary_op "plus" (ASTExpr.opRval 1)
            (mk_integer_constant 0)))
          "0x1000" "04c09de8" ["0x1000", "LDMIA"] := by
  have h := ldm_ast_prov_spec ldmOp0 "0x1000" "04c09de8" ldmXdOk rfl (by decide)
  exact ((h.2.1 0 (by decide)).1).trans (by decide)

/-- Claim C8: in UBFX's `ast_prov`, a failure of the recovered-expression
conversion is caught and the low-level rvalue is substituted as the degraded
high-level rvalue, so that (with the single resolved lvalue) a structurally
valid paired assignment is still emitted and the lift is not aborted; while
a resolver yielding more than one rvalue, or more than one lvalue, for the
single destination makes `ast_prov` raise the fatal contract-violation
error. -/
theorem ubfx_ast_prov_spec (env : XConvEnv) (op : ARMUnsignedExtractBitField)
    (iaddr bytestring : String) (xdata : InstrXData) :
    (∀ e, env.xxpr_to_ast_def_exprs (xdata.xprs.getD 1 default)
          = Except.error e →
        (env.xvariable_to_ast_lvals (xdata.vars.getD 0 default)).length = 1 →
        ARMUnsignedExtractBitField.ast_prov env op iaddr bytestring xdata
          = Except.ok
              ([mk_assign
                  ((env.xvariable_to_ast_lvals (xdata.vars.getD 0 default)).getD
                    0 default)
                  (op.opargs.getD 1 default).ast_rvalue.1
                  iaddr bytestring [iaddr, "UBFX"]],
               [mk_assign (op.opargs.getD 0 default).ast_lvalue.1
                  (op.opargs.getD 1 default).ast_rvalue.1
                  iaddr bytestring [iaddr, "UBFX"]]))
    ∧ (∀ es, env.xxpr_to_ast_def_exprs (xdata.xprs.getD 1 default)
          = Except.ok es →
        1 < es.length →
        ARMUnsignedExtractBitField.ast_prov env op iaddr bytestring xdata
          = Except.error
              "ARMUnsignedBitFieldExtract: multiple expressions/lvals in ast")
    ∧ (1 < (env.xvariable_to_ast_lvals (xdata.vars.getD 0 default)).length →
        ARMUnsignedExtractBitField.ast_prov env op iaddr bytestring xdata
          = Except.error
              "ARMUnsignedBitFieldExtract: multiple expressions/lvals in ast") := by
  refine ⟨?_, ?_, ?_⟩
  · intro e he hlen
    have hlen2 : (env.xvariable_to_ast_lvals (xdata.vars[0]?.getD default)).length
        = 1 := by simpa using hlen
    unfold ARMUnsignedExtractBitField.ast_prov
    dsimp only
    rw [he]
    simp [hlen2, ast_variable_intro]
  · intro es hes hgt
    have hne : ¬ (es.length = 1) := by omega
    unfold ARMUnsignedExtractBitField.ast_prov
    dsimp only
    rw [hes]
    simp [hne]
  · intro hgt
    have hne2 : ¬ ((env.xvariable_to_ast_lvals (xdata.vars[0]?.getD default)).length
        = 1) := by
      have : ¬ ((env.xvariable_to_ast_lvals (xdata.vars.getD 0 default)).length
          = 1) := by omega
      simpa using this
    unfold ARMUnsignedExtractBitField.ast_prov
    dsimp only
    cases hc : env.xxpr_to_ast_def_exprs (xdata.xprs.getD 1 default) with
    | ok es => simp [hne2]
    | error e => simp [hne2]

/-- Witness for claim C8: with a resolver whose expression conversion always
fails, the concrete UBFX instance still emits a paired assignment whose
high-level right-hand side is the low-level rvalue. -/
theorem ubfx_ast_prov_spec_witness :
    ARMUnsignedExtractBitField.ast_prov ubfxEnvFail ubfxOp0 "0x200" "cc" ubfxXd0
      = Except.ok
          ([mk_assign (ASTLval.xLval ⟨"R2"⟩) (ASTExpr.opRval 9)
              "0x200" "cc" ["0x200", "UBFX"]],
           [mk_assign (ASTLval.opLval 0) (ASTExpr.opRval 9)
              "0x200" "cc" ["0x200", "UBFX"]]) := by
  have h := (ubfx_ast_prov_spec ubfxEnvFail ubfxOp0 "0x200" "cc" ubfxXd0).1
    "conversion failed" rfl rfl
  exact h.trans (by rfl)

end CHB
